import Mathlib

/-!
Verification of the habit analytics engine of routine-buddy.

The engine lives in `backend/app/services/prediction_service.py`,
`backend/app/services/scheduler_service.py` and `backend/app/ml/predictor.py`.
Completion timestamps are reduced to what the analytics actually consume: a
calendar date (modelled as a day number in `ℤ`) and an hour of day. Python
floats are modelled as rationals, and Python `round(x, n)` as rounding to the
nearest multiple of `10 ^ (-n)` (CPython breaks float ties to even; no result
proved here sits on a tie, so the difference is immaterial).
-/

namespace RoutineBuddy

/-- Calendar-level view of one `HabitCompletion` row: the calendar date (as a
day number) and the hour of day, both derived from `completed_at`. -/
structure Completion where
  date : ℤ
  hour : ℕ
deriving Repr, DecidableEq

/-! ## Streak calculation

`SmartReminderService._calculate_streaks` and
`PredictionService.calculate_current_streak` both deduplicate the completion
dates, sort them, and walk the unique dates from the most recent one
backwards. The scheduler walks the ascending list from its last index down;
the prediction service sorts descending and walks forward. Both therefore
visit the descending unique-date list front to back, which is how the shared
loop is expressed here. -/

/-- Inner loop of the current-streak walk: after having accepted date `d`,
count how many further dates of the descending list continue the run of
strictly consecutive calendar days (difference exactly 1), stopping at the
first gap. -/
def chainLen : ℤ → List ℤ → ℕ
  | _, [] => 0
  | d, x :: xs => if d - x = 1 then 1 + chainLen x xs else 0

/-- Loop of the longest-streak scan in `_calculate_streaks`: walk the
ascending unique dates keeping the running consecutive-day counter `temp` and
the best value seen `longest`; after the loop the result is
`max longest temp`. -/
def longestAux : ℤ → ℕ → ℕ → List ℤ → ℕ
  | _, longest, temp, [] => max longest temp
  | prev, longest, temp, x :: xs =>
      if x - prev = 1 then longestAux x longest (temp + 1) xs
      else longestAux x (max longest temp) 1 xs

/-- Python `sorted(list(set(dates)))`: duplicate dates collapse and the unique
dates are sorted ascending. -/
def sortedUniqueDates (dates : List ℤ) : List ℤ :=
  List.insertionSort (· ≤ ·) dates.dedup

/-- Current-streak loop on the unique dates in descending order: when the most
recent date is at most 1 day before `today` the streak is alive (this is the
one-day grace) and extends through every strictly consecutive predecessor;
otherwise the streak is 0. -/
def currentFromDesc (today : ℤ) : List ℤ → ℕ
  | [] => 0
  | m :: r => if today - m ≤ 1 then 1 + chainLen m r else 0

/-- Longest-streak scan on the ascending unique dates (0 for no dates, the
counter starts at 1 otherwise). -/
def longestFromAsc : List ℤ → ℕ
  | [] => 0
  | h :: t => longestAux h 0 1 t

/-- Embeds `SmartReminderService._calculate_streaks`: returns
`(current_streak, longest_streak)` from the raw completion dates. -/
def calculateStreaks (today : ℤ) (dates : List ℤ) : ℕ × ℕ :=
  (currentFromDesc today (sortedUniqueDates dates).reverse,
   longestFromAsc (sortedUniqueDates dates))

/-- Embeds `PredictionService.calculate_current_streak` (same deduplication
and walk, performed on the dates of the loaded completions). -/
def calculateCurrentStreak (today : ℤ) (completions : List Completion) : ℕ :=
  currentFromDesc today (sortedUniqueDates (completions.map (·.date))).reverse

/-! ## Consistency score -/

/-- Python `round(x, 2)` on rationals: round to the nearest multiple of
`1/100`. -/
def round2 (q : ℚ) : ℚ := ((round (q * 100) : ℤ) : ℚ) / 100

/-- Python `round(x, 1)` on rationals: round to the nearest multiple of
`1/10`. -/
def round1 (q : ℚ) : ℚ := ((round (q * 10) : ℤ) : ℚ) / 10

/-- Pandas `df.groupby('date').size()`: the per-day completion counts, one
entry per distinct date (in ascending date order, as pandas indexes them). -/
def dailyCounts (dates : List ℤ) : List ℕ :=
  (sortedUniqueDates dates).map fun d => dates.count d

/-- Pandas `Series.mean`: sum over length. -/
def listMean (xs : List ℚ) : ℚ := xs.sum / xs.length

/-- Pandas `Series.var` with its default `ddof=1`: sample variance with
denominator `n - 1`. -/
def listSampleVar (xs : List ℚ) : ℚ :=
  (xs.map fun x => (x - listMean xs) ^ 2).sum / ((xs.length : ℚ) - 1)

/-- Embeds `PredictionService.calculate_consistency`: empty input returns 0.0;
fewer than 2 distinct days return 1.0 (one day) or 0.0; otherwise
`max(0, 1 - var/(mean + 1))` of the daily counts, rounded to 2 decimals. -/
def calculateConsistency (completions : List Completion) : ℚ :=
  if completions = [] then 0
  else
    let counts : List ℚ :=
      (dailyCounts (completions.map (·.date))).map fun n : ℕ => (n : ℚ)
    if counts.length < 2 then (if counts.length = 1 then 1 else 0)
    else round2 (max 0 (1 - listSampleVar counts / (listMean counts + 1)))

/-! ## Success prediction -/

/-- Embeds `PredictionService._calculate_prediction`: the rule-based scoring
formula and the tier thresholds, returning `(tier, probability)`. -/
def calculatePrediction (completionRate : ℚ) (streakLength : ℕ)
    (consistency : ℚ) : String × ℚ :=
  let baseProbability := completionRate * 100
  let streakBonus : ℚ := min 20 ((streakLength : ℚ) * 2)
  let consistencyBonus := consistency * 15
  let probability := min 95 (baseProbability + streakBonus + consistencyBonus)
  let prediction :=
    if 80 ≤ probability then "high"
    else if 50 ≤ probability then "medium"
    else "low"
  (prediction, probability)

/-- Fields of the dictionary returned by `predict_habit_success` that carry
the prediction (the recommendation text and the analysis-quality label are
cosmetic and omitted). -/
structure PredictionResult where
  prediction : String
  probability : ℚ
  completionRate : ℚ
  currentStreak : ℕ
  consistency : ℚ
deriving Repr, DecidableEq

/-- Embeds `PredictionService.predict_habit_success` for an existing habit
whose 30-day completion window is already loaded: an empty window
short-circuits to the low/10.0 result before any metric or the scoring
formula is computed. -/
def predictHabitSuccess (today : ℤ) (completions : List Completion) :
    PredictionResult :=
  if completions = [] then
    { prediction := "low", probability := 10, completionRate := 0
      currentStreak := 0, consistency := 0 }
  else
    let completionRate : ℚ := (completions.length : ℚ) / 30
    let streakLength := calculateCurrentStreak today completions
    let consistencyScore := calculateConsistency completions
    let p := calculatePrediction completionRate streakLength consistencyScore
    { prediction := p.1, probability := round1 p.2
      completionRate := round1 (completionRate * 100)
      currentStreak := streakLength, consistency := consistencyScore }

/-- Fields of the dictionary returned by
`HabitPredictor._rule_based_prediction` (the `factors` sub-dictionary echoes
the inputs and is omitted). -/
structure RuleBasedResult where
  prediction : String
  probability : ℚ
  confidence : ℚ
  willSucceed : Bool
deriving Repr, DecidableEq

/-- Embeds `HabitPredictor._rule_based_prediction`, the rule-based fallback
scorer in the ML predictor module. -/
def ruleBasedPrediction (completionRate : ℚ) (currentStreak : ℕ)
    (consistencyScore : ℚ) : RuleBasedResult :=
  let baseProb := completionRate * 100
  let streakBonus : ℚ := min 20 ((currentStreak : ℚ) * 2)
  let consistencyBonus := consistencyScore * 15
  let probability := min 95 (baseProb + streakBonus + consistencyBonus)
  let category :=
    if 80 ≤ probability then "high"
    else if 50 ≤ probability then "medium"
    else "low"
  { prediction := category, probability := probability
    confidence := 70, willSucceed := decide (50 ≤ probability) }

/-! ## Smart reminder analysis

`scheduler_service.py` imports only `numpy as np`; the name `pd` is unbound in
that module. Both `analyze_optimal_reminder_time` and `get_completion_stats`
evaluate `pd.DataFrame(...)` on every path that reaches their analysis body,
which raises `NameError` at runtime; the enclosing blanket `except` handlers
log it and return `None` respectively an `{"error": ...}` dictionary. The
embeddings below reproduce that behaviour. -/

/-- Shape of the dictionary `analyze_optimal_reminder_time` is written to
return (the function can never actually build it, see the embedding). -/
structure ReminderAnalysis where
  suggestedReminderHour : ℕ
  peakCompletionHour : ℕ
  confidence : ℚ
  totalCompletions : ℕ
deriving Repr, DecidableEq

/-- Embeds `SmartReminderService.analyze_optimal_reminder_time`. Fewer than 3
completions hit the explicit insufficient-data gate and return `None`. With 3
or more, the body immediately evaluates `pd.DataFrame(completion_data)`;
`pd` is an unbound name in `scheduler_service.py`, the lookup raises
`NameError`, and the blanket `except` returns `None`. Hence the function
returns `None` on every input. -/
def analyzeOptimalReminderTime (completions : List Completion) :
    Option ReminderAnalysis :=
  if completions.length < 3 then none
  else none

/-- Confidence formula as written in the body of
`analyze_optimal_reminder_time` (`min(95, total*10 + (50 - hours.var()))`,
sample variance): the value the code text would produce were `pandas`
imported. Kept to examine the claimed `[0, 95]` clamp. -/
def confidenceFormula (completions : List Completion) : ℚ :=
  min 95 ((completions.length : ℚ) * 10 +
    (50 - listSampleVar (completions.map fun c => (c.hour : ℚ))))

/-- Reminder-hour formula as written in the body of
`analyze_optimal_reminder_time` (`max(6, best_hour - 1)`). -/
def suggestedHourFormula (peakHour : ℤ) : ℤ := max 6 (peakHour - 1)

/-! ## Completion statistics window (scheduler) -/

/-- Timestamped completion used by the window queries; `completedAt` is the
`completed_at` instant measured in seconds. -/
structure TimedCompletion where
  completedAt : ℤ
deriving Repr, DecidableEq

/-- Seconds in one day: `timedelta(days=d)` shifts an instant by `d * 86400`
seconds. -/
def secondsPerDay : ℤ := 86400

/-- Embeds the query of `PredictionService.get_recent_completions`: keep the
habit completions with `completed_at >= utcnow() - timedelta(days=days)`. The
`days` parameter is a Python `int`, so negative values are accepted and push
the window start into the future. -/
def getRecentCompletions (db : List TimedCompletion) (now windowDays : ℤ) :
    List TimedCompletion :=
  db.filter fun c => now - windowDays * secondsPerDay ≤ c.completedAt

/-- Shape of the zero/default statistics dictionary returned by
`get_completion_stats` for an empty window. -/
structure CompletionStats where
  totalCompletions : ℕ
  completionRate : ℚ
  averageDaily : ℚ
  bestHour : Option ℕ
  consistencyScore : ℚ
  streakCurrent : ℕ
  streakLongest : ℕ
deriving Repr, DecidableEq

/-- Outcome of `get_completion_stats`: a statistics dictionary or the
`{"error": ...}` dictionary built by the `except` handler. -/
inductive StatsResult where
  | stats (s : CompletionStats)
  | failure (msg : String)
deriving Repr, DecidableEq

/-- Zero/default statistics returned for an empty window. -/
def emptyStats : CompletionStats :=
  { totalCompletions := 0, completionRate := 0, averageDaily := 0
    bestHour := none, consistencyScore := 0, streakCurrent := 0
    streakLongest := 0 }

/-- Embeds `SmartReminderService.get_completion_stats`: filter the habit
completions to the window; an empty window returns the zero/default
statistics before any analysis runs; a non-empty window reaches
`pd.DataFrame(...)`, which raises `NameError` (`pandas` is not imported in
`scheduler_service.py`), and the blanket `except` turns this into the error
dictionary. -/
def getCompletionStats (db : List TimedCompletion) (now windowDays : ℤ) :
    StatsResult :=
  if (db.filter fun c =>
      now - windowDays * secondsPerDay ≤ c.completedAt).isEmpty then
    .stats emptyStats
  else .failure "NameError: name pd is not defined"

/-! ## Specification-side definitions -/

/-- Specification-side current-streak value: the length of the run of
strictly consecutive calendar days ending at the most recent completion date
`m`, i.e. the greatest `k` (bounded by the number of distinct dates) such
that `m, m-1, ..., m-k+1` are all completion dates. -/
def consecutiveRunLen (dates : List ℤ) (m : ℤ) : ℕ :=
  Nat.findGreatest (fun k => ∀ j < k, m - (j : ℤ) ∈ dates) dates.dedup.length

/-- Proof helper: the running consecutive-day counter of the longest-streak
scan, without the `longest` accumulator. Its final value is the length of the
trailing consecutive run of the ascending list. -/
def runAux : ℤ → ℕ → List ℤ → ℕ
  | _, temp, [] => temp
  | prev, temp, x :: xs =>
      if x - prev = 1 then runAux x (temp + 1) xs else runAux x 1 xs

/-- Proof helper: trailing-run counter for a whole ascending list. -/
def runLen : List ℤ → ℕ
  | [] => 0
  | h :: t => runAux h 1 t

/-- Proof helper: the value the current-streak walk returns on a descending
unique-date list when the alive-check is forced true, one plus the backward
chain from the most recent date. -/
def chainListDesc : List ℤ → ℕ
  | [] => 0
  | m :: r => 1 + chainLen m r

/-! ## C1: Success Predictor formula -/

/-- C1: for every input triple the rule-based scorer of the prediction
service returns probability
`min(95, completion_rate*100 + min(20, 2*current_streak) + 15*consistency)`,
and the tier is `high` exactly when the probability is at least 80, `medium`
exactly when it lies in `[50, 80)`, and `low` exactly when it is below 50. -/
theorem c1_success_predictor_formula (rate consistency : ℚ) (streak : ℕ) :
    (calculatePrediction rate streak consistency).2
        = min 95 (rate * 100 + min 20 ((streak : ℚ) * 2) + consistency * 15)
      ∧ ((calculatePrediction rate streak consistency).1 = "high"
          ↔ 80 ≤ (calculatePrediction rate streak consistency).2)
      ∧ ((calculatePrediction rate streak consistency).1 = "medium"
          ↔ 50 ≤ (calculatePrediction rate streak consistency).2
            ∧ (calculatePrediction rate streak consistency).2 < 80)
      ∧ ((calculatePrediction rate streak consistency).1 = "low"
          ↔ (calculatePrediction rate streak consistency).2 < 50) := by
  unfold calculatePrediction
  dsimp only
  split_ifs with h1 h2 <;>
    refine ⟨rfl, ?_, ?_, ?_⟩ <;>
      simp only [String.reduceEq, true_iff, iff_true, false_iff, iff_false,
        not_and, not_le, not_lt] <;>
      first
      | exact h1
      | exact h2
      | exact fun _ => h1
      | exact ⟨h2, not_le.mp h1⟩
      | exact not_le.mp h1
      | exact not_le.mp h2
      | exact fun h => absurd h h2
      | linarith

/-! ## C5: empty-window short-circuit -/

/-- C5: a habit whose 30-day window holds zero completions makes the Success
Predictor short-circuit to exactly tier `low` with probability 10.0, before
the scoring formula runs. -/
theorem c5_empty_window_short_circuit (today : ℤ) :
    (predictHabitSuccess today []).prediction = "low"
      ∧ (predictHabitSuccess today []).probability = 10 :=
  ⟨rfl, rfl⟩

/-! ## C10: the two rule-based scorers agree -/

/-- C10: for every input triple, the rule-based scorer in the prediction
service and the rule-based fallback scorer in the ML predictor module compute
the identical tier and the identical numeric probability. -/
theorem c10_scorers_agree (rate consistency : ℚ) (streak : ℕ) :
    (ruleBasedPrediction rate streak consistency).prediction
        = (calculatePrediction rate streak consistency).1
      ∧ (ruleBasedPrediction rate streak consistency).probability
        = (calculatePrediction rate streak consistency).2 :=
  ⟨rfl, rfl⟩

/-! ## C7: insufficient-data gate -/

/-- C7: with fewer than 3 completions the hour/reminder analyzer returns the
`None` insufficient-data sentinel, a distinguished result value produced by
the explicit gate (no histogram, no suggested hour, nothing raised). -/
theorem c7_insufficient_data_gate (completions : List Completion)
    (h : completions.length < 3) :
    analyzeOptimalReminderTime completions = none := by
  unfold analyzeOptimalReminderTime
  exact if_pos h

/-- Witness for C7 at a single completion. -/
theorem c7_insufficient_data_gate_witness :
    analyzeOptimalReminderTime [⟨0, 9⟩] = none :=
  c7_insufficient_data_gate [⟨0, 9⟩] (by decide)

/-! ## C6: analyzer confidence -/

/-- C6 counterexample: three completions (hours 9, 9, 10) — the analyzer
returns `None` rather than any result carrying
`confidence = min(95, total*10 + (50 - var(hours)))`: its body fails on the
unbound name `pd` and the blanket `except` yields `None`. -/
theorem c6_confidence_counterexample :
    analyzeOptimalReminderTime [⟨0, 9⟩, ⟨0, 9⟩, ⟨1, 10⟩] = none := rfl

/-- C6 amended: for every completion set with at least 3 completions the
analyzer returns `None` — the `pd.DataFrame` call raises `NameError` because
`scheduler_service.py` never imports pandas and the handler swallows it — so
no confidence value is ever produced. -/
theorem c6_amended_no_confidence (completions : List Completion)
    (h : 3 ≤ completions.length) :
    analyzeOptimalReminderTime completions = none := by
  unfold analyzeOptimalReminderTime
  exact if_neg (by omega)

/-- Witness for the amended C6 at four completions. -/
theorem c6_amended_no_confidence_witness :
    analyzeOptimalReminderTime [⟨0, 7⟩, ⟨0, 8⟩, ⟨1, 9⟩, ⟨2, 9⟩] = none :=
  c6_amended_no_confidence _ (by decide)

/-- The confidence formula as written in the code text clamps only from
above: with hours 0, 0, 23 it evaluates below 0, so no `[0, 95]` lower clamp
exists even in the intended computation. -/
theorem confidenceFormula_can_be_negative :
    confidenceFormula [⟨0, 0⟩, ⟨0, 0⟩, ⟨0, 23⟩] < 0 := by
  norm_num [confidenceFormula, listSampleVar, listMean]

/-! ## C8: reminder floor -/

/-- C8: evaluating the code at the failing input — three completions all at
hour 5, the peak hour for which the claim demands suggested hour
`max(6, 4) = 6`: the analyzer returns `None` (unbound `pd`, swallowed
`NameError`), so no suggested hour is produced at all. -/
theorem c8_code_returns_none_at_peak_five :
    analyzeOptimalReminderTime [⟨0, 5⟩, ⟨1, 5⟩, ⟨2, 5⟩] = none := rfl

/-- The reminder-hour formula in the code text is floored at 6 (recorded for
reference; the code never reaches it). -/
theorem suggestedHourFormula_ge_six (peakHour : ℤ) :
    6 ≤ suggestedHourFormula peakHour :=
  le_max_left _ _

/-! ## C9: malformed input -/

/-- C9 counterexample: `window_days = -5` with one completion at the current
instant — `get_completion_stats` returns the all-zero default statistics
dictionary and `get_recent_completions` returns the empty list; no validation
error is raised for the negative window. -/
theorem c9_negative_window_counterexample :
    getCompletionStats [⟨0⟩] 0 (-5) = .stats emptyStats
      ∧ getRecentCompletions [⟨0⟩] 0 (-5) = [] :=
  ⟨rfl, rfl⟩

/-- C9 amended: a negative `window_days` is not validated anywhere in the
engine: the window start `utcnow() - timedelta(days=days)` lands strictly in
the future, so no stored completion (all at or before `now`) passes the
filter — `get_recent_completions` returns the empty list and
`get_completion_stats` returns the all-zero default statistics, a degenerate
result rather than a hard failure. -/
theorem c9_amended_negative_window_degenerate
    (db : List TimedCompletion) (now windowDays : ℤ)
    (hneg : windowDays < 0) (hpast : ∀ c ∈ db, c.completedAt ≤ now) :
    getRecentCompletions db now windowDays = []
      ∧ getCompletionStats db now windowDays = .stats emptyStats := by
  have hfilter :
      db.filter (fun c =>
        decide (now - windowDays * secondsPerDay ≤ c.completedAt)) = [] := by
    rw [List.filter_eq_nil_iff]
    intro c hc
    have h1 : c.completedAt ≤ now := hpast c hc
    have h4 : windowDays * 86400 ≤ (-1) * 86400 :=
      mul_le_mul_of_nonneg_right (by omega : windowDays ≤ -1) (by norm_num)
    simp only [secondsPerDay, decide_eq_true_eq, not_le]
    omega
  constructor
  · exact hfilter
  · unfold getCompletionStats
    rw [hfilter]
    rfl

/-- Witness for the amended C9. -/
theorem c9_amended_negative_window_degenerate_witness :
    getRecentCompletions [⟨-100⟩] 0 (-1) = []
      ∧ getCompletionStats [⟨-100⟩] 0 (-1) = .stats emptyStats :=
  c9_amended_negative_window_degenerate [⟨-100⟩] 0 (-1) (by decide) (by decide)

/-! ## C3: streak monotonicity -/

/-- The plain running counter never exceeds the longest-streak loop value:
both walks recurse identically, and the loop finishes with
`max longest temp`. -/
theorem runAux_le_longestAux (xs : List ℤ) : ∀ prev longest temp,
    runAux prev temp xs ≤ longestAux prev longest temp xs := by
  induction xs with
  | nil =>
      intro prev longest temp
      exact le_max_right longest temp
  | cons x xs ih =>
      intro prev longest temp
      simp only [runAux, longestAux]
      split_ifs with h
      · exact ih x longest (temp + 1)
      · exact ih x (max longest temp) 1

/-- Appending one more date to the walk either extends the final counter by
one (when it chains onto the previous last date) or resets it to 1. -/
theorem runAux_concat (xs : List ℤ) : ∀ prev temp x,
    runAux prev temp (xs ++ [x])
      = if x - xs.getLastD prev = 1 then runAux prev temp xs + 1 else 1 := by
  induction xs with
  | nil =>
      intro prev temp x
      simp only [List.nil_append, runAux, List.getLastD_nil]
  | cons y ys ih =>
      intro prev temp x
      by_cases h : y - prev = 1
      · simp only [List.cons_append, runAux, if_pos h, List.getLastD_cons]
        exact ih y (temp + 1) x
      · simp only [List.cons_append, runAux, if_neg h, List.getLastD_cons]
        exact ih y 1 x

/-- Appending one more date to a non-empty list changes the backward chain
from the most recent date the same way. -/
theorem chainListDesc_reverse_concat (h : ℤ) (t : List ℤ) (x : ℤ) :
    chainListDesc ((h :: t) ++ [x]).reverse
      = if x - (h :: t).getLastD 0 = 1
        then chainListDesc (h :: t).reverse + 1 else 1 := by
  obtain ⟨a, as, hrev⟩ : ∃ a as, (h :: t).reverse = a :: as := by
    cases hr : (h :: t).reverse with
    | nil => exact absurd (List.reverse_eq_nil_iff.mp hr) (List.cons_ne_nil h t)
    | cons a as => exact ⟨a, as, rfl⟩
  have ha : (h :: t).getLastD 0 = a := by
    have h1 : (h :: t).reverse.head? = some a := by rw [hrev]; rfl
    rw [List.head?_reverse] at h1
    rw [List.getLastD_eq_getLast?, h1]
    rfl
  rw [List.reverse_append, hrev, ha]
  simp only [List.reverse_cons, List.reverse_nil, List.nil_append,
    List.singleton_append, chainListDesc, chainLen]
  split_ifs with hx
  · omega
  · rfl

/-- The forward running counter of an ascending list computes exactly the
backward chain from its most recent date. -/
theorem runLen_eq_chainListDesc (l : List ℤ) :
    runLen l = chainListDesc l.reverse := by
  induction l using List.reverseRecOn with
  | nil => rfl
  | append_singleton ys x ih =>
      cases ys with
      | nil => rfl
      | cons h t =>
          rw [chainListDesc_reverse_concat, ← ih]
          show runAux h 1 (t ++ [x]) = _
          rw [runAux_concat, List.getLastD_cons]
          rfl

/-- C3: for every non-empty list of completion dates and every reference
date, the longest streak returned by `_calculate_streaks` is at least the
current streak it returns. -/
theorem c3_streak_monotonicity (today : ℤ) (dates : List ℤ)
    (_hne : dates ≠ []) :
    (calculateStreaks today dates).1 ≤ (calculateStreaks today dates).2 := by
  unfold calculateStreaks
  dsimp only
  cases hu : sortedUniqueDates dates with
  | nil => exact Nat.le_refl 0
  | cons hd tl =>
      have h1 : currentFromDesc today (hd :: tl).reverse
          ≤ chainListDesc (hd :: tl).reverse := by
        cases hrev : (hd :: tl).reverse with
        | nil => exact Nat.le_refl 0
        | cons m r =>
            simp only [currentFromDesc, chainListDesc]
            split_ifs
            · exact Nat.le_refl _
            · exact Nat.zero_le _
      have h2 : chainListDesc (hd :: tl).reverse = runLen (hd :: tl) :=
        (runLen_eq_chainListDesc (hd :: tl)).symm
      have h3 : runLen (hd :: tl) ≤ longestFromAsc (hd :: tl) :=
        runAux_le_longestAux tl hd 0 1
      calc currentFromDesc today (hd :: tl).reverse
          ≤ chainListDesc (hd :: tl).reverse := h1
        _ = runLen (hd :: tl) := h2
        _ ≤ longestFromAsc (hd :: tl) := h3

/-- Witness for C3: dates 1, 2, 5 with reference date 5 (current streak 1,
longest streak 2). -/
theorem c3_streak_monotonicity_witness :
    (calculateStreaks 5 [1, 2, 5]).1 ≤ (calculateStreaks 5 [1, 2, 5]).2 :=
  c3_streak_monotonicity 5 [1, 2, 5] (by decide)

/-! ## C2: current streak -/

theorem sortedUniqueDates_sorted (dates : List ℤ) :
    (sortedUniqueDates dates).Sorted (· ≤ ·) :=
  List.sorted_insertionSort _ _

theorem sortedUniqueDates_nodup (dates : List ℤ) :
    (sortedUniqueDates dates).Nodup :=
  ((List.perm_insertionSort _ dates.dedup).nodup_iff).mpr dates.nodup_dedup

theorem mem_sortedUniqueDates {x : ℤ} {dates : List ℤ} :
    x ∈ sortedUniqueDates dates ↔ x ∈ dates :=
  ((List.perm_insertionSort _ dates.dedup).mem_iff).trans (List.mem_dedup)

theorem sortedUniqueDates_length (dates : List ℤ) :
    (sortedUniqueDates dates).length = dates.dedup.length :=
  (List.perm_insertionSort _ dates.dedup).length_eq

/-- The reversed unique-date list is strictly descending. -/
theorem sortedUniqueDates_reverse_pairwise (dates : List ℤ) :
    (sortedUniqueDates dates).reverse.Pairwise (· > ·) := by
  rw [List.pairwise_reverse]
  exact (sortedUniqueDates_sorted dates).lt_of_le (sortedUniqueDates_nodup dates)

theorem chainLen_le_length (r : List ℤ) : ∀ m, chainLen m r ≤ r.length := by
  induction r with
  | nil => intro m; exact Nat.le_refl 0
  | cons x xs ih =>
      intro m
      simp only [chainLen, List.length_cons]
      split_ifs
      · have := ih x; omega
      · omega

/-- Every position reached by the chain walk is a date of the list: the walk
only accepts dates that decrease by exactly one. -/
theorem chain_mem (r : List ℤ) : ∀ (m : ℤ) (j : ℕ),
    j < 1 + chainLen m r → m - (j : ℤ) ∈ m :: r := by
  induction r with
  | nil =>
      intro m j hj
      simp only [chainLen] at hj
      have hj0 : j = 0 := by omega
      subst hj0
      simp
  | cons x xs ih =>
      intro m j hj
      by_cases h : m - x = 1
      · simp only [chainLen, if_pos h] at hj
        cases j with
        | zero => simp
        | succ j =>
            have hj2 : j < 1 + chainLen x xs := by omega
            have hx := ih x j hj2
            have heq : m - ((j + 1 : ℕ) : ℤ) = x - (j : ℤ) := by
              push_cast
              omega
            rw [heq]
            exact List.mem_cons_of_mem m hx
      · simp only [chainLen, if_neg h] at hj
        have hj0 : j = 0 := by omega
        subst hj0
        simp

/-- The date one step past the chain walk is not in the strictly descending
list: the walk stopped at a genuine gap (or exhausted the list). -/
theorem chain_not_mem (r : List ℤ) : ∀ (m : ℤ),
    (m :: r).Pairwise (· > ·) →
    m - ((1 + chainLen m r : ℕ) : ℤ) ∉ m :: r := by
  induction r with
  | nil =>
      intro m _
      simp only [chainLen, Nat.add_zero, Nat.cast_one, List.mem_singleton]
      omega
  | cons x xs ih =>
      intro m hp
      have hmx : m > x := (List.pairwise_cons.mp hp).1 x (List.mem_cons_self x xs)
      have hptail : (x :: xs).Pairwise (· > ·) := (List.pairwise_cons.mp hp).2
      by_cases h : m - x = 1
      · simp only [chainLen, if_pos h]
        have hx := ih x hptail
        intro hmem
        have heq : m - ((1 + (1 + chainLen x xs) : ℕ) : ℤ)
            = x - ((1 + chainLen x xs : ℕ) : ℤ) := by
          push_cast
          omega
        rw [heq] at hmem
        rcases List.mem_cons.mp hmem with h1 | h1
        · have hc : (0 : ℤ) ≤ ((1 + chainLen x xs : ℕ) : ℤ) := Int.natCast_nonneg _
          omega
        · exact hx h1
      · simp only [chainLen, if_neg h, Nat.add_zero, Nat.cast_one]
        intro hmem
        rcases List.mem_cons.mp hmem with h1 | h1
        · omega
        rcases List.mem_cons.mp h1 with h2 | h2
        · omega
        · have hxy : x > m - 1 := (List.pairwise_cons.mp hptail).1 _ h2
          omega

/-- The most recent completion date heads the reversed unique-date list. -/
theorem reverse_sortedUnique_eq_max_cons (dates : List ℤ) (m : ℤ)
    (hmem : m ∈ dates) (hmax : ∀ x ∈ dates, x ≤ m) :
    ∃ r, (sortedUniqueDates dates).reverse = m :: r := by
  have hm : m ∈ (sortedUniqueDates dates).reverse := by
    rw [List.mem_reverse]
    exact mem_sortedUniqueDates.mpr hmem
  cases hrev : (sortedUniqueDates dates).reverse with
  | nil => rw [hrev] at hm; exact absurd hm (List.not_mem_nil m)
  | cons a as =>
      refine ⟨as, ?_⟩
      rw [hrev] at hm
      have hdesc : (a :: as).Pairwise (fun p q => q ≤ p) := by
        rw [← hrev, List.pairwise_reverse]
        exact sortedUniqueDates_sorted dates
      have haindates : a ∈ dates := by
        have h1 : a ∈ (sortedUniqueDates dates).reverse := by
          rw [hrev]
          exact List.mem_cons_self a as
        rw [List.mem_reverse] at h1
        exact mem_sortedUniqueDates.mp h1
      have ham : a ≤ m := hmax a haindates
      have hma : m ≤ a := by
        rcases List.mem_cons.mp hm with h1 | h1
        · omega
        · exact (List.pairwise_cons.mp hdesc).1 m h1
      have hEq : a = m := le_antisymm ham hma
      rw [hEq]

/-- C2: whenever the most recent completion date `m` is at most 1 day before
`today`, both streak calculators return exactly the length of the run of
strictly consecutive calendar days ending at `m` (the greatest `k` with
`m, m-1, ..., m-k+1` all completed); when `m` is more than 1 day old they
return 0; and in the alive case the streak is at least 1 (so a completion
exactly one day ago with nothing today still counts). -/
theorem c2_current_streak (today : ℤ) (completions : List Completion) (m : ℤ)
    (hmem : m ∈ completions.map (·.date))
    (hmax : ∀ x ∈ completions.map (·.date), x ≤ m) :
    (calculateCurrentStreak today completions
        = if today - m ≤ 1
          then consecutiveRunLen (completions.map (·.date)) m else 0)
      ∧ ((calculateStreaks today (completions.map (·.date))).1
        = if today - m ≤ 1
          then consecutiveRunLen (completions.map (·.date)) m else 0)
      ∧ (today - m ≤ 1 → 1 ≤ calculateCurrentStreak today completions) := by
  set dates := completions.map (·.date) with hdates
  obtain ⟨r, hrev⟩ := reverse_sortedUnique_eq_max_cons dates m hmem hmax
  have hcur : calculateCurrentStreak today completions
      = currentFromDesc today (sortedUniqueDates dates).reverse := rfl
  have hstr : (calculateStreaks today dates).1
      = currentFromDesc today (sortedUniqueDates dates).reverse := rfl
  have hkey : currentFromDesc today (sortedUniqueDates dates).reverse
      = if today - m ≤ 1 then consecutiveRunLen dates m else 0 := by
    rw [hrev]
    simp only [currentFromDesc]
    by_cases hc : today - m ≤ 1
    · rw [if_pos hc, if_pos hc]
      have hpair : (m :: r).Pairwise (· > ·) := by
        rw [← hrev]
        exact sortedUniqueDates_reverse_pairwise dates
      have hmemlist : ∀ x : ℤ, x ∈ m :: r ↔ x ∈ dates := by
        intro x
        rw [← hrev, List.mem_reverse, mem_sortedUniqueDates]
      have hlen : (m :: r).length = dates.dedup.length := by
        rw [← hrev, List.length_reverse, sortedUniqueDates_length]
      symm
      unfold consecutiveRunLen
      rw [Nat.findGreatest_eq_iff]
      refine ⟨?_, ?_, ?_⟩
      · rw [← hlen]
        simp only [List.length_cons]
        have := chainLen_le_length r m
        omega
      · intro _ j hj
        exact (hmemlist _).mp (chain_mem r m j hj)
      · intro n hn _ hP
        have h1 : m - ((1 + chainLen m r : ℕ) : ℤ) ∈ dates := hP _ hn
        exact chain_not_mem r m hpair ((hmemlist _).mpr h1)
    · rw [if_neg hc, if_neg hc]
  refine ⟨hcur.trans hkey, hstr.trans hkey, ?_⟩
  intro hc
  rw [hcur, hrev]
  simp only [currentFromDesc, if_pos hc]
  omega

/-- Witness for C2: a single completion on day 9 viewed from day 10 — one
day in the past, nothing today — still yields current streak 1. -/
theorem c2_current_streak_witness :
    calculateCurrentStreak 10 [⟨9, 8⟩] = 1
      ∧ 1 ≤ calculateCurrentStreak 10 [⟨9, 8⟩] := by
  have h := c2_current_streak 10 [⟨9, 8⟩] 9 (by decide) (by decide)
  refine ⟨?_, h.2.2 (by decide)⟩
  rw [h.1]
  decide

/-! ## C4: consistency scorer -/

/-- Rounding on rationals is monotone. -/
theorem roundRat_mono {x y : ℚ} (h : x ≤ y) : round x ≤ round y := by
  rw [round_eq, round_eq]
  exact Int.floor_le_floor (by linarith)

theorem round2_nonneg {q : ℚ} (h : 0 ≤ q) : 0 ≤ round2 q := by
  unfold round2
  apply div_nonneg _ (by norm_num)
  have h1 : round (0 : ℚ) ≤ round (q * 100) := roundRat_mono (by linarith)
  rw [round_zero] at h1
  exact_mod_cast h1

theorem round2_le_one {q : ℚ} (h : q ≤ 1) : round2 q ≤ 1 := by
  unfold round2
  rw [div_le_one (by norm_num)]
  have h1 : round (q * 100) ≤ round (100 : ℚ) := roundRat_mono (by linarith)
  have h2 : round (100 : ℚ) = 100 := by
    rw [show (100 : ℚ) = ((100 : ℤ) : ℚ) by norm_num, round_intCast]
  rw [h2] at h1
  exact_mod_cast h1

theorem listMean_nonneg {xs : List ℚ} (h : ∀ x ∈ xs, 0 ≤ x) :
    0 ≤ listMean xs :=
  div_nonneg (List.sum_nonneg h) (Nat.cast_nonneg _)

theorem listSampleVar_nonneg {xs : List ℚ} (h : 2 ≤ xs.length) :
    0 ≤ listSampleVar xs := by
  unfold listSampleVar
  apply div_nonneg
  · apply List.sum_nonneg
    intro x hx
    obtain ⟨y, hy, rfl⟩ := List.mem_map.mp hx
    exact sq_nonneg _
  · have h2 : (2 : ℚ) ≤ (xs.length : ℚ) := by exact_mod_cast h
    linarith

/-- C4: the consistency score is 0.0 for zero distinct completion days, 1.0
for exactly one distinct day, and `max(0, 1 - var/(mean+1))` of the per-day
completion counts rounded to 2 decimals for two or more distinct days; the
result always lies in [0, 1]. -/
theorem c4_consistency_scorer (completions : List Completion) :
    ((completions.map (·.date)).dedup.length = 0
        → calculateConsistency completions = 0)
      ∧ ((completions.map (·.date)).dedup.length = 1
        → calculateConsistency completions = 1)
      ∧ (2 ≤ (completions.map (·.date)).dedup.length
        → calculateConsistency completions
          = round2 (max 0 (1 -
              listSampleVar
                  ((dailyCounts (completions.map (·.date))).map fun n : ℕ => (n : ℚ))
                / (listMean
                    ((dailyCounts (completions.map (·.date))).map fun n : ℕ => (n : ℚ))
                  + 1))))
      ∧ 0 ≤ calculateConsistency completions
      ∧ calculateConsistency completions ≤ 1 := by
  by_cases hE : completions = []
  · subst hE
    refine ⟨fun _ => rfl, ?_, ?_, by norm_num [calculateConsistency],
      by norm_num [calculateConsistency]⟩
    · intro h
      simp at h
    · intro h
      simp at h
  · have hlen :
        ((dailyCounts (completions.map (·.date))).map fun n : ℕ => (n : ℚ)).length
          = (completions.map (·.date)).dedup.length := by
      unfold dailyCounts
      rw [List.length_map, List.length_map]
      exact sortedUniqueDates_length _
    refine ⟨?_, ?_, ?_, ?_, ?_⟩
    · intro h
      rw [List.length_eq_zero, List.dedup_eq_nil, List.map_eq_nil_iff] at h
      exact absurd h hE
    · intro h1
      simp only [calculateConsistency, if_neg hE, hlen, h1]
      norm_num
    · intro h2
      simp only [calculateConsistency, if_neg hE, hlen]
      rw [if_neg (by omega)]
    · by_cases h2 :
        ((dailyCounts (completions.map (·.date))).map fun n : ℕ => (n : ℚ)).length < 2
      · simp only [calculateConsistency, if_neg hE, if_pos h2]
        split_ifs <;> norm_num
      · simp only [calculateConsistency, if_neg hE, if_neg h2]
        exact round2_nonneg (le_max_left _ _)
    · by_cases h2 :
        ((dailyCounts (completions.map (·.date))).map fun n : ℕ => (n : ℚ)).length < 2
      · simp only [calculateConsistency, if_neg hE, if_pos h2]
        split_ifs <;> norm_num
      · simp only [calculateConsistency, if_neg hE, if_neg h2]
        apply round2_le_one
        apply max_le (by norm_num)
        have hvar : 0 ≤ listSampleVar
            ((dailyCounts (completions.map (·.date))).map fun n : ℕ => (n : ℚ)) :=
          listSampleVar_nonneg (by omega)
        have hmean : 0 ≤ listMean
            ((dailyCounts (completions.map (·.date))).map fun n : ℕ => (n : ℚ)) := by
          apply listMean_nonneg
          intro x hx
          obtain ⟨y, hy, rfl⟩ := List.mem_map.mp hx
          positivity
        have hdiv : 0 ≤ listSampleVar
            ((dailyCounts (completions.map (·.date))).map fun n : ℕ => (n : ℚ))
              / (listMean
                  ((dailyCounts (completions.map (·.date))).map fun n : ℕ => (n : ℚ))
                + 1) :=
          div_nonneg hvar (by linarith)
        linarith

/-- Witness for C4: one distinct day gives 1.0; days 0, 1, 1 (two distinct
days, counts 1 and 2) take the variance formula branch and stay inside
[0, 1]. -/
theorem c4_consistency_scorer_witness :
    calculateConsistency [⟨0, 0⟩] = 1
      ∧ calculateConsistency [⟨0, 0⟩, ⟨1, 0⟩, ⟨1, 0⟩]
          = round2 (max 0 (1 -
              listSampleVar
                  ((dailyCounts (([⟨0, 0⟩, ⟨1, 0⟩, ⟨1, 0⟩] : List Completion).map
                    (·.date))).map fun n : ℕ => (n : ℚ))
                / (listMean
                    ((dailyCounts (([⟨0, 0⟩, ⟨1, 0⟩, ⟨1, 0⟩] : List Completion).map
                      (·.date))).map fun n : ℕ => (n : ℚ))
                  + 1)))
      ∧ 0 ≤ calculateConsistency [⟨0, 0⟩, ⟨1, 0⟩, ⟨1, 0⟩]
      ∧ calculateConsistency [⟨0, 0⟩, ⟨1, 0⟩, ⟨1, 0⟩] ≤ 1 :=
  ⟨(c4_consistency_scorer [⟨0, 0⟩]).2.1 (by decide),
   (c4_consistency_scorer [⟨0, 0⟩, ⟨1, 0⟩, ⟨1, 0⟩]).2.2.1 (by decide),
   (c4_consistency_scorer [⟨0, 0⟩, ⟨1, 0⟩, ⟨1, 0⟩]).2.2.2.1,
   (c4_consistency_scorer [⟨0, 0⟩, ⟨1, 0⟩, ⟨1, 0⟩]).2.2.2.2⟩

end RoutineBuddy
